import Mathlib

/-!
Verification development for the photorec-sorter repository.

The repository's driver code exists in two variants:
  * `recovery.py` (stand-alone script, function `main`), and
  * `src/photorec_sorter/recovery.py` (packaged, function `do_organization`).

Both walk a source tree, copy every file into a per-extension directory of the
destination, then invoke `jpgSorter.postprocessImages` on the JPG bucket and
`numberOfFilesPerFolderLimiter.limitFilesPerFolder` on the whole destination.
The helper modules `jpgSorter` and `numberOfFilesPerFolderLimiter` are not part
of the provided sources; where a claim depends on them they are modelled from
the specification and marked as such.

Strings model Python `str`; paths are plain strings joined with "/" (POSIX).
The filesystem is modelled explicitly: the walk of the source is an input list
of (root, filename) pairs, and the destination state records which paths
exist, which directories were created, and which copies were performed.
-/

/-- Python `s.lower()` restricted to ASCII, as a transparent character map. -/
def strLower (s : String) : String := String.mk (s.data.map Char.toLower)

/-- Python `s.upper()` restricted to ASCII, as a transparent character map. -/
def strUpper (s : String) : String := String.mk (s.data.map Char.toUpper)

/-- POSIX `os.path.join` for a relative second component. -/
def pjoin (a b : String) : String := a ++ "/" ++ b

/-- Index of the last '.' in a character list, if any
    (the `p.rfind` step of CPython `os.path.splitext`). -/
def lastDotIdx (cs : List Char) : Option Nat :=
  ((cs.enum.filter (fun p => p.2 == '.')).map (fun p => p.1)).getLast?

/-- Python `os.path.splitext(file)[1][1:]` for a bare filename: the extension
    after the last dot, empty when there is no dot or when every character
    before the last dot is itself a dot (CPython's leading-dot rule). -/
def splitextExt (file : String) : String :=
  match lastDotIdx file.data with
  | none => ""
  | some d =>
    if (file.data.take d).any (fun c => c != '.') then String.mk (file.data.drop (d + 1))
    else ""

/-- A parsed `YYYY:MM:DD HH:MM:SS` timestamp (a `time.struct_time` projection). -/
structure DateTime where
  year : Nat
  month : Nat
  day : Nat
  hour : Nat
  minute : Nat
  second : Nat
deriving Repr, DecidableEq

/-- Chronological key: lexicographic value of the six fields. -/
def dtKey (t : DateTime) : Nat :=
  ((((t.year * 13 + t.month) * 32 + t.day) * 24 + t.hour) * 60 + t.minute) * 62 + t.second

/-- Numeric value of a digit run. -/
def digitsVal (cs : List Char) : Nat :=
  cs.foldl (fun n c => n * 10 + (c.toNat - 48)) 0

/-- Parse a 1-2 digit field in the range [lo, hi], as CPython `_strptime`'s
    field regexes do for `%m %d %H %M %S` when followed by a non-digit. -/
def parseTwoDigit (cs : List Char) (lo hi : Nat) : Option (Nat × List Char) :=
  let ds := cs.takeWhile Char.isDigit
  let rest := cs.dropWhile Char.isDigit
  if ds.length = 0 then none
  else if ds.length > 2 then none
  else if lo ≤ digitsVal ds ∧ digitsVal ds ≤ hi then some (digitsVal ds, rest)
  else none

/-- Consume one expected literal character. -/
def expectChar (c : Char) : List Char → Option (List Char)
  | [] => none
  | x :: xs => if x = c then some xs else none

/-- Python `time.strptime(s, "%Y:%m:%d %H:%M:%S")` as used at recovery.py:118
    and packaged recovery.py:82: a full-string match of a 4-digit year and
    range-checked month/day/hour/minute/second, `none` for `ValueError`. -/
def parseTimestamp (s : String) : Option DateTime := do
  let cs := s.data
  let yds := cs.takeWhile Char.isDigit
  let r0 := cs.dropWhile Char.isDigit
  if yds.length ≠ 4 then none else
  let r1 ← expectChar ':' r0
  let (mo, r2) ← parseTwoDigit r1 1 12
  let r3 ← expectChar ':' r2
  let (da, r4) ← parseTwoDigit r3 1 31
  let r5 ← expectChar ' ' r4
  let (ho, r6) ← parseTwoDigit r5 0 23
  let r7 ← expectChar ':' r6
  let (mi, r8) ← parseTwoDigit r7 0 59
  let r9 ← expectChar ':' r8
  let (se, r10) ← parseTwoDigit r9 0 61
  if r10 = [] then
    some { year := digitsVal yds, month := mo, day := da, hour := ho, minute := mi, second := se }
  else none

/-- Zero-pad to two digits (strftime's `%m %d %H %M %S`). -/
def pad2 (n : Nat) : String := if n < 10 then "0" ++ Nat.repr n else Nat.repr n

/-- Zero-pad to four digits (strftime's `%Y`). -/
def pad4 (n : Nat) : String :=
  if n < 10 then "000" ++ Nat.repr n
  else if n < 100 then "00" ++ Nat.repr n
  else if n < 1000 then "0" ++ Nat.repr n
  else Nat.repr n

/-- Python `strftime("%Y%m%d_%H%M%S", t)` at recovery.py:119 / packaged :83. -/
def fmtCompact (t : DateTime) : String :=
  pad4 t.year ++ pad2 t.month ++ pad2 t.day ++ "_" ++
    pad2 t.hour ++ pad2 t.minute ++ pad2 t.second

/-- Destination-side state of the copy phase.  `existing` holds every path for
    which `os.path.exists` answers true (the destination root, pre-existing
    paths, directories created by `os.mkdir` and files created by
    `shutil.copy2`); `mkdirs` and `copies` record the I/O performed, in order;
    `counter` is the loop's file counter. -/
structure CopyState where
  existing : List String
  mkdirs : List String
  copies : List (String × String)
  counter : Nat
deriving Repr, DecidableEq

/-- Fresh destination state: only the destination root exists, no I/O yet. -/
def initState (dest : String) : CopyState :=
  { existing := [dest], mkdirs := [], copies := [], counter := 0 }

/-- A concrete destination state in which d/JPG/x.jpg already exists. -/
def demoState : CopyState :=
  { existing := ["d", "d/JPG", "d/JPG/x.jpg"], mkdirs := ["d/JPG"], copies := [], counter := 5 }

/-- The `if not os.path.exists(destinationDirectory): os.mkdir(...)` step
    (recovery.py:105-106, packaged :69-70). -/
def mkdirStep (st : CopyState) (dir : String) : CopyState :=
  if dir ∈ st.existing then st
  else { st with existing := dir :: st.existing, mkdirs := dir :: st.mkdirs }

/-- The `if not os.path.exists(destinationFile): shutil.copy2(...)` step
    (recovery.py:134-135, packaged :98-99). -/
def copyStep (st : CopyState) (src dfile : String) : CopyState :=
  if dfile ∈ st.existing then st
  else { st with existing := dfile :: st.existing, copies := st.copies ++ [(src, dfile)] }

/-- The unconditional `fileCounter += 1` (recovery.py:137, packaged :101). -/
def bumpCounter (st : CopyState) : CopyState := { st with counter := st.counter + 1 }

/-- Candidate name probed by the date-time collision loop: the base name for
    probe 0, then `base(n).ext` for probe n ≥ 1 (recovery.py:120-123). -/
def dtProbeName (base ex : String) : Nat → String
  | 0 => base ++ "." ++ ex
  | Nat.succ k => base ++ "(" ++ Nat.repr (k + 1) ++ ")." ++ ex

/-- The `while os.path.exists(...)` collision loop of recovery.py:121-123
    (packaged :85-87), given fuel; with the probes distinct, fuel exceeding the
    number of existing paths always suffices. -/
def probeLoop (existing : List String) (dir base ex : String) : Nat → Nat → String
  | 0, idx => dtProbeName base ex idx
  | Nat.succ fuel, idx =>
    let name := dtProbeName base ex idx
    if pjoin dir name ∈ existing then probeLoop existing dir base ex fuel (idx + 1)
    else name

/-- The filename chosen for one file (recovery.py:108-131, identical logic at
    packaged :72-95): original name if keeping filenames; else the formatted
    timestamp with collision probing when it parses, the original name when it
    does not; else the global counter with the lower-cased extension.
    `ex` is the already case-mapped extension of the driver variant. -/
def chosenName (existing : List String) (counter : Nat) (keep dtf : Bool)
    (file ex dir creation : String) : String :=
  if keep then file
  else if dtf then
    match parseTimestamp creation with
    | some t => probeLoop existing dir (fmtCompact t) (strLower ex) (existing.length + 1) 0
    | none => file
  else if ex ≠ "" then Nat.repr counter ++ "." ++ strLower ex
  else Nat.repr counter

/-- Destination directory of the script driver (recovery.py:97-103):
    upper-cased extension, `_NO_EXTENSION` when the file has none. -/
def destDirScript (dest file : String) : String :=
  let ex := strUpper (splitextExt file)
  if ex ≠ "" then pjoin dest ex else pjoin dest "_NO_EXTENSION"

/-- Destination directory of the packaged driver (packaged recovery.py:61-67):
    lower-cased extension, `no_extension` when the file has none. -/
def destDirPkg (dest file : String) : String :=
  let ex := strLower (splitextExt file)
  if ex ≠ "" then pjoin dest ex else pjoin dest "no_extension"

/-- One iteration of the script driver's copy loop body (recovery.py:96-137).
    `cr` maps a source path to the `str(creationTime)` value that
    `jpgSorter.getMinimumCreationTime` yields for its EXIF tags. -/
def processFileScript (dest : String) (keep dtf : Bool) (cr : String → String)
    (st : CopyState) (root file : String) : CopyState :=
  let dir := destDirScript dest file
  let st1 := mkdirStep st dir
  let name := chosenName st1.existing st1.counter keep dtf file
    (strUpper (splitextExt file)) dir (cr (pjoin root file))
  bumpCounter (copyStep st1 (pjoin root file) (pjoin dir name))

/-- One iteration of the packaged driver's copy loop body (packaged
    recovery.py:60-101); differs from the script only in `destDirPkg` and the
    lower-cased extension. -/
def processFilePkg (dest : String) (keep dtf : Bool) (cr : String → String)
    (st : CopyState) (root file : String) : CopyState :=
  let dir := destDirPkg dest file
  let st1 := mkdirStep st dir
  let name := chosenName st1.existing st1.counter keep dtf file
    (strLower (splitextExt file)) dir (cr (pjoin root file))
  bumpCounter (copyStep st1 (pjoin root file) (pjoin dir name))

/-- The script driver's whole copy loop over the walk of the source tree. -/
def runCopyScript (dest : String) (keep dtf : Bool) (cr : String → String)
    (walk : List (String × String)) (st : CopyState) : CopyState :=
  walk.foldl (fun s rf => processFileScript dest keep dtf cr s rf.1 rf.2) st

/-- The packaged driver's whole copy loop over the walk of the source tree. -/
def runCopyPkg (dest : String) (keep dtf : Bool) (cr : String → String)
    (walk : List (String × String)) (st : CopyState) : CopyState :=
  walk.foldl (fun s rf => processFilePkg dest keep dtf cr s rf.1 rf.2) st

/-- `getNumberOfFilesInFolderRecursively` (recovery.py:15-22, packaged :15-22)
    over the walk of the source tree: a walked entry increments the count only
    when `os.path.isfile(os.path.join(dirpath, f))` holds (`isfile` models that
    test; it fails for walked names that are not regular files, e.g. dangling
    symbolic links, which the copy loop nevertheless processes). -/
def getNumberOfFilesInFolderRecursively (isfile : String → Bool)
    (walk : List (String × String)) : Nat :=
  walk.foldl (fun n rf => if isfile (pjoin rf.1 rf.2) then n + 1 else n) 0

/-- The progress divisor (recovery.py:85-88, packaged :51-54):
    `int(fileNumber/100)` when more than 100 files, else the count itself. -/
def onePercentFiles (fileNumber : Nat) : Nat :=
  if fileNumber > 100 then fileNumber / 100 else fileNumber

/-- Outcome of a driver run: the copy-phase state plus the arguments handed to
    the two post-processing collaborators. -/
structure OrgResult where
  finalState : CopyState
  postprocessDir : String
  minEventDelta : Int
  splitMonths : Bool
  limiterCap : Int
deriving Repr, DecidableEq

/-- The packaged driver `do_organization` (packaged recovery.py:29-109):
    existence checks on source and destination (`ValueError` otherwise), the
    copy loop, then `postprocessImages(os.path.join(destination, "JPG"), ...)`
    and `limitFilesPerFolder(destination, max_files_per_folder)`.
    `isdir` models `os.path.isdir`. -/
def do_organization (isdir : String → Bool) (source destination : String)
    (max_files_per_folder : Int)
    (enable_split_months enable_keep_filename enable_datetime_filename : Bool)
    (min_event_delta_days : Int) (cr : String → String)
    (walk : List (String × String)) (st : CopyState) : Except String OrgResult :=
  if ¬ isdir source then Except.error ("Source directory does not exist: " ++ source)
  else if ¬ isdir destination then
    Except.error ("Destination directory does not exist: " ++ destination)
  else Except.ok
    { finalState := runCopyPkg destination enable_keep_filename enable_datetime_filename
        cr walk st
      postprocessDir := pjoin destination "JPG"
      minEventDelta := min_event_delta_days
      splitMonths := enable_split_months
      limiterCap := max_files_per_folder }

/-- The script driver `main` (recovery.py:50-145), after argument parsing:
    the same existence checks, the script copy loop, then
    `postprocessImages(os.path.join(destination, "JPG"), ...)` and
    `limitFilesPerFolder(destination, maxNumberOfFilesPerFolder)`. -/
def mainScript (isdir : String → Bool) (source destination : String)
    (maxNumberOfFilesPerFolder : Int) (splitMonths keepFilename dateTimeFilename : Bool)
    (minEventDeltaDays : Int) (cr : String → String)
    (walk : List (String × String)) (st : CopyState) : Except String OrgResult :=
  if ¬ isdir source then Except.error ("Source directory does not exist: " ++ source)
  else if ¬ isdir destination then
    Except.error ("Destination directory does not exist: " ++ destination)
  else Except.ok
    { finalState := runCopyScript destination keepFilename dateTimeFilename cr walk st
      postprocessDir := pjoin destination "JPG"
      minEventDelta := minEventDeltaDays
      splitMonths := splitMonths
      limiterCap := maxNumberOfFilesPerFolder }

/-- Modelled from the spec: `jpgSorter.getMinimumCreationTime` is imported by
    both drivers but `jpgSorter` is not among the provided sources.  Per spec
    §4.1 the resolver is a pure function of its candidate mapping (metadata
    field name to raw value): it parses each candidate with the fixed format
    `YYYY:MM:DD HH:MM:SS` and returns the minimum (earliest) successfully
    parsed value, or "unknown" (here `none`) when no candidate parses. -/
def getMinimumCreationTime (tags : List (String × String)) : Option DateTime :=
  match tags.filterMap (fun p => parseTimestamp p.2) with
  | [] => none
  | x :: xs => some (xs.foldl (fun a b => if dtKey b < dtKey a then b else a) x)

/-- Modelled from the spec: a destination directory tree for the capacity
    partitioner of `numberOfFilesPerFolderLimiter`, which is not among the
    provided sources.  A node carries its direct files and its named
    subdirectories. -/
inductive FTree : Type where
  | node (files : List String) (subdirs : List (String × FTree)) : FTree

/-- Modelled from the spec: contiguous groups of size at most `cap`, in the
    existing order (spec §4.3; §9 "index-range slicing over an already-ordered
    list").  A zero cap degenerates to a single group. -/
def chunks (cap : Nat) (xs : List String) : List (List String) :=
  if cap = 0 ∨ xs.length ≤ cap then [xs]
  else xs.take cap :: chunks cap (xs.drop cap)
termination_by xs.length
decreasing_by simp; omega

/-- Modelled from the spec: the numbered sub-directories receiving the groups
    of an over-full directory's files (spec §4.3, §6 ".../<n>/<file>"). -/
def numberedChunks (cap : Nat) (fs : List String) : List (String × FTree) :=
  (chunks cap fs).enum.map (fun p => (Nat.repr (p.1 + 1), FTree.node p.2 []))

mutual
/-- Modelled from the spec: `limitFilesPerFolder` (spec §4.3): process the tree
    post-order (subdirectories first); a directory whose direct file count is
    within the cap is left alone, otherwise its files are split, in order, into
    contiguous groups of at most `cap` files moved into numbered
    sub-directories. -/
def partitionDir (cap : Nat) : FTree → FTree
  | FTree.node fs ds =>
    let ds2 := partitionForest cap ds
    if fs.length ≤ cap then FTree.node fs ds2
    else FTree.node [] (ds2 ++ numberedChunks cap fs)

/-- Modelled from the spec: `partitionDir` applied to every subdirectory. -/
def partitionForest (cap : Nat) : List (String × FTree) → List (String × FTree)
  | [] => []
  | p :: ps => (p.1, partitionDir cap p.2) :: partitionForest cap ps
end

mutual
/-- Modelled from the spec: the partition cap invariant (spec §8): every
    directory's direct file count is at most the cap. -/
def compliant (cap : Nat) : FTree → Bool
  | FTree.node fs ds => decide (fs.length ≤ cap) && compliantForest cap ds

/-- Modelled from the spec: `compliant` at every subdirectory. -/
def compliantForest (cap : Nat) : List (String × FTree) → Bool
  | [] => true
  | p :: ps => compliant cap p.2 && compliantForest cap ps
end

example : splitextExt "a.jpg" = "jpg" := by decide
example : splitextExt "README" = "" := by decide
example : splitextExt ".bashrc" = "" := by decide
example : splitextExt "a.b.c" = "c" := by decide
example : splitextExt "file." = "" := by decide
example : parseTimestamp "2021:02:03 04:05:06" = some ⟨2021, 2, 3, 4, 5, 6⟩ := by decide
example : parseTimestamp "unknown" = none := by decide
example : parseTimestamp "2021:13:03 04:05:06" = none := by decide
example : fmtCompact ⟨2021, 2, 3, 4, 5, 6⟩ = "20210203_040506" := by decide
example : strLower "JPG" = "jpg" := by decide

theorem char_toNat_ofNatAux (n : Nat) (h : n.isValidChar) :
    (Char.ofNatAux n h).toNat = n := by
  unfold Char.ofNatAux Char.toNat UInt32.toNat
  simp

theorem char_toNat_ofNat_valid (n : Nat) (h : n.isValidChar) :
    (Char.ofNat n).toNat = n := by
  rw [Char.ofNat, dif_pos h]
  exact char_toNat_ofNatAux n h

theorem char_toLower_toUpper (c : Char) : c.toUpper.toLower = c.toLower := by
  simp only [Char.toUpper, Char.toLower]
  by_cases h : c.toNat ≥ 97 ∧ c.toNat ≤ 122
  · rw [if_pos h]
    have hv : (c.toNat - 32).isValidChar := Or.inl (by omega)
    have ht : (Char.ofNat (c.toNat - 32)).toNat = c.toNat - 32 :=
      char_toNat_ofNat_valid _ hv
    rw [ht, if_pos (by omega), if_neg (by omega)]
    have h32 : c.toNat - 32 + 32 = c.toNat := by omega
    rw [h32, Char.ofNat_toNat]
  · rw [if_neg h]

theorem char_toLower_toLower (c : Char) : c.toLower.toLower = c.toLower := by
  simp only [Char.toLower]
  by_cases h : c.toNat ≥ 65 ∧ c.toNat ≤ 90
  · rw [if_pos h]
    have hv : (c.toNat + 32).isValidChar := Or.inl (by omega)
    have ht : (Char.ofNat (c.toNat + 32)).toNat = c.toNat + 32 :=
      char_toNat_ofNat_valid _ hv
    rw [ht, if_neg (by omega)]
  · rw [if_neg h]
    rw [if_neg h]

theorem strLower_strUpper (s : String) : strLower (strUpper s) = strLower s := by
  unfold strLower strUpper
  apply congrArg String.mk
  rw [List.map_map]
  rw [show Char.toLower ∘ Char.toUpper = Char.toLower from funext char_toLower_toUpper]

theorem strLower_strLower (s : String) : strLower (strLower s) = strLower s := by
  unfold strLower
  apply congrArg String.mk
  rw [List.map_map]
  rw [show Char.toLower ∘ Char.toLower = Char.toLower from funext char_toLower_toLower]

theorem string_data_eq_nil_iff (s : String) : s.data = [] ↔ s = "" := by
  cases s with
  | mk d =>
    constructor
    · intro h
      exact congrArg String.mk h
    · intro h
      exact congrArg String.data h

theorem strUpper_eq_empty_iff (s : String) : strUpper s = "" ↔ s = "" := by
  unfold strUpper
  rw [← string_data_eq_nil_iff s, ← string_data_eq_nil_iff (String.mk (s.data.map Char.toUpper))]
  simp

theorem strLower_eq_empty_iff (s : String) : strLower s = "" ↔ s = "" := by
  unfold strLower
  rw [← string_data_eq_nil_iff s, ← string_data_eq_nil_iff (String.mk (s.data.map Char.toLower))]
  simp

theorem mkdirStep_counter (st : CopyState) (dir : String) :
    (mkdirStep st dir).counter = st.counter := by
  unfold mkdirStep
  split <;> rfl

theorem copyStep_counter (st : CopyState) (src dfile : String) :
    (copyStep st src dfile).counter = st.counter := by
  unfold copyStep
  split <;> rfl

theorem processFileScript_counter (dest : String) (keep dtf : Bool) (cr : String → String)
    (st : CopyState) (root file : String) :
    (processFileScript dest keep dtf cr st root file).counter = st.counter + 1 := by
  simp only [processFileScript, bumpCounter, copyStep_counter, mkdirStep_counter]

theorem processFilePkg_counter (dest : String) (keep dtf : Bool) (cr : String → String)
    (st : CopyState) (root file : String) :
    (processFilePkg dest keep dtf cr st root file).counter = st.counter + 1 := by
  simp only [processFilePkg, bumpCounter, copyStep_counter, mkdirStep_counter]

theorem runCopyScript_counter (dest : String) (keep dtf : Bool) (cr : String → String)
    (walk : List (String × String)) (st : CopyState) :
    (runCopyScript dest keep dtf cr walk st).counter = st.counter + walk.length := by
  induction walk generalizing st with
  | nil => rfl
  | cons hd tl ih =>
    unfold runCopyScript at ih ⊢
    rw [List.foldl_cons, ih, processFileScript_counter, List.length_cons]
    omega

theorem runCopyPkg_counter (dest : String) (keep dtf : Bool) (cr : String → String)
    (walk : List (String × String)) (st : CopyState) :
    (runCopyPkg dest keep dtf cr walk st).counter = st.counter + walk.length := by
  induction walk generalizing st with
  | nil => rfl
  | cons hd tl ih =>
    unfold runCopyPkg at ih ⊢
    rw [List.foldl_cons, ih, processFilePkg_counter, List.length_cons]
    omega

theorem probeLoop_spec (existing : List String) (dir base ex : String) :
    ∀ fuel idx n, idx ≤ n → n - idx < fuel →
    (∀ i, idx ≤ i → i < n → pjoin dir (dtProbeName base ex i) ∈ existing) →
    pjoin dir (dtProbeName base ex n) ∉ existing →
    probeLoop existing dir base ex fuel idx = dtProbeName base ex n := by
  intro fuel
  induction fuel with
  | zero =>
    intro idx n h1 h2 h3 h4
    omega
  | succ fuel ih =>
    intro idx n h1 h2 h3 h4
    unfold probeLoop
    by_cases hmem : pjoin dir (dtProbeName base ex idx) ∈ existing
    · have hlt : idx < n := by
        rcases Nat.lt_or_ge idx n with h | h
        · exact h
        · exact absurd hmem (by rw [show idx = n by omega]; exact h4)
      simp only [hmem, if_pos]
      exact ih (idx + 1) n hlt (by omega) (fun i hi1 hi2 => h3 i (by omega) hi2) h4
    · have heq : idx = n := by
        by_contra hne
        exact hmem (h3 idx (Nat.le_refl idx) (Nat.lt_of_le_of_ne h1 hne))
      subst heq
      simp [hmem]

theorem chunks_mem_length (cap : Nat) (hc : 1 ≤ cap) :
    (xs : List String) → ∀ c ∈ chunks cap xs, c.length ≤ cap
  | xs => by
    rw [chunks]
    split
    · rename_i h
      intro c hcm
      rw [List.mem_singleton] at hcm
      subst hcm
      rcases h with h0 | hle
      · omega
      · exact hle
    · rename_i h
      push_neg at h
      intro c hcm
      rcases List.mem_cons.mp hcm with rfl | hm
      · simp [List.length_take]
      · exact chunks_mem_length cap hc (xs.drop cap) c hm
termination_by xs => xs.length
decreasing_by simp; omega

theorem partitionForest_cons (cap : Nat) (p : String × FTree) (ps : List (String × FTree)) :
    partitionForest cap (p :: ps) = (p.1, partitionDir cap p.2) :: partitionForest cap ps := rfl

theorem compliantForest_cons (cap : Nat) (p : String × FTree) (ps : List (String × FTree)) :
    compliantForest cap (p :: ps) = (compliant cap p.2 && compliantForest cap ps) := rfl

theorem partitionForest_append (cap : Nat) (a b : List (String × FTree)) :
    partitionForest cap (a ++ b) = partitionForest cap a ++ partitionForest cap b := by
  induction a with
  | nil => rfl
  | cons hd tl ih =>
    rw [List.cons_append, partitionForest_cons, partitionForest_cons, ih, List.cons_append]

theorem compliantForest_append (cap : Nat) (a b : List (String × FTree)) :
    compliantForest cap (a ++ b) = (compliantForest cap a && compliantForest cap b) := by
  induction a with
  | nil => rfl
  | cons hd tl ih =>
    rw [List.cons_append, compliantForest_cons, compliantForest_cons, ih, Bool.and_assoc]

theorem partitionForest_id_of_each (cap : Nat) :
    ∀ l : List (String × FTree), (∀ p ∈ l, partitionDir cap p.2 = p.2) →
    partitionForest cap l = l := by
  intro l
  induction l with
  | nil => intro _; rfl
  | cons hd tl ih =>
    intro h
    rw [partitionForest_cons, h hd (List.mem_cons_self hd tl),
      ih (fun p hp => h p (List.mem_cons_of_mem hd hp))]

theorem compliantForest_of_each (cap : Nat) :
    ∀ l : List (String × FTree), (∀ p ∈ l, compliant cap p.2 = true) →
    compliantForest cap l = true := by
  intro l
  induction l with
  | nil => intro _; rfl
  | cons hd tl ih =>
    intro h
    rw [compliantForest_cons, h hd (List.mem_cons_self hd tl),
      ih (fun p hp => h p (List.mem_cons_of_mem hd hp))]
    rfl

theorem partitionDir_leaf (cap : Nat) (fs : List String) (h : fs.length ≤ cap) :
    partitionDir cap (FTree.node fs []) = FTree.node fs [] := by
  unfold partitionDir
  rw [if_pos h]
  rfl

theorem mem_of_mem_numberedChunks (cap : Nat) (fs : List String) (p : String × FTree)
    (hp : p ∈ numberedChunks cap fs) :
    ∃ c ∈ chunks cap fs, p.2 = FTree.node c [] := by
  unfold numberedChunks at hp
  rw [List.mem_map] at hp
  obtain ⟨q, hq, hpe⟩ := hp
  refine ⟨q.2, ?_, ?_⟩
  · exact List.getElem?_mem (List.mem_enum_iff_getElem?.mp hq)
  · rw [← hpe]

theorem numberedChunks_fixed (cap : Nat) (hc : 1 ≤ cap) (fs : List String) :
    partitionForest cap (numberedChunks cap fs) = numberedChunks cap fs := by
  apply partitionForest_id_of_each
  intro p hp
  obtain ⟨c, hcm, hpe⟩ := mem_of_mem_numberedChunks cap fs p hp
  rw [hpe]
  exact partitionDir_leaf cap c (chunks_mem_length cap hc fs c hcm)

theorem numberedChunks_compliant (cap : Nat) (hc : 1 ≤ cap) (fs : List String) :
    compliantForest cap (numberedChunks cap fs) = true := by
  apply compliantForest_of_each
  intro p hp
  obtain ⟨c, hcm, hpe⟩ := mem_of_mem_numberedChunks cap fs p hp
  rw [hpe]
  unfold compliant
  rw [decide_eq_true (chunks_mem_length cap hc fs c hcm)]
  rfl

mutual
theorem partitionDir_compliant (cap : Nat) (hc : 1 ≤ cap) :
    ∀ t, compliant cap (partitionDir cap t) = true
  | FTree.node fs ds => by
    unfold partitionDir
    by_cases h : fs.length ≤ cap
    · rw [if_pos h]
      unfold compliant
      rw [decide_eq_true h, partitionForest_compliant cap hc ds]
      rfl
    · rw [if_neg h]
      unfold compliant
      rw [compliantForest_append, partitionForest_compliant cap hc ds,
        numberedChunks_compliant cap hc fs]
      simp

theorem partitionForest_compliant (cap : Nat) (hc : 1 ≤ cap) :
    ∀ l, compliantForest cap (partitionForest cap l) = true
  | [] => rfl
  | p :: ps => by
    rw [partitionForest_cons, compliantForest_cons,
      partitionDir_compliant cap hc p.2, partitionForest_compliant cap hc ps]
    rfl
end

mutual
theorem partitionDir_of_compliant (cap : Nat) :
    ∀ t, compliant cap t = true → partitionDir cap t = t
  | FTree.node fs ds => by
    intro h
    unfold compliant at h
    rw [Bool.and_eq_true, decide_eq_true_eq] at h
    unfold partitionDir
    rw [if_pos h.1, partitionForest_of_compliant cap ds h.2]

theorem partitionForest_of_compliant (cap : Nat) :
    ∀ l, compliantForest cap l = true → partitionForest cap l = l
  | [] => fun _ => rfl
  | p :: ps => by
    intro h
    rw [compliantForest_cons, Bool.and_eq_true] at h
    rw [partitionForest_cons, partitionDir_of_compliant cap p.2 h.1,
      partitionForest_of_compliant cap ps h.2]
end

theorem foldl_min_spec (xs : List DateTime) (x : DateTime) :
    (xs.foldl (fun a b => if dtKey b < dtKey a then b else a) x) ∈ x :: xs ∧
    ∀ v ∈ x :: xs,
      dtKey (xs.foldl (fun a b => if dtKey b < dtKey a then b else a) x) ≤ dtKey v := by
  induction xs generalizing x with
  | nil =>
    constructor
    · exact List.mem_singleton_self x
    · intro v hv
      rw [List.mem_singleton] at hv
      subst hv
      exact Nat.le_refl _
  | cons y ys ih =>
    rw [List.foldl_cons]
    obtain ⟨ihm, ihle⟩ := ih (if dtKey y < dtKey x then y else x)
    have hxx : dtKey (if dtKey y < dtKey x then y else x) ≤ dtKey x := by
      split
      · rename_i hlt
        exact Nat.le_of_lt hlt
      · exact Nat.le_refl _
    have hxy : dtKey (if dtKey y < dtKey x then y else x) ≤ dtKey y := by
      split
      · exact Nat.le_refl _
      · rename_i hnlt
        omega
    have hmle : dtKey (ys.foldl (fun a b => if dtKey b < dtKey a then b else a)
        (if dtKey y < dtKey x then y else x)) ≤
        dtKey (if dtKey y < dtKey x then y else x) :=
      ihle _ (List.mem_cons_self _ _)
    constructor
    · rcases List.mem_cons.mp ihm with he | hm
      · rw [he]
        split
        · exact List.mem_cons_of_mem x (List.mem_cons_self y ys)
        · exact List.mem_cons_self x (y :: ys)
      · exact List.mem_cons_of_mem x (List.mem_cons_of_mem y hm)
    · intro v hv
      rcases List.mem_cons.mp hv with rfl | hv2
      · exact Nat.le_trans hmle hxx
      · rcases List.mem_cons.mp hv2 with rfl | hv3
        · exact Nat.le_trans hmle hxy
        · exact ihle v (List.mem_cons_of_mem _ hv3)

/-- C1: the claim asserts that the directory jpeg files are copied into during
    the extension-based copy equals the directory passed to postprocessImages.
    This holds for the script driver (upper-cased "JPG"), but the packaged
    do_organization copies jpegs into the lower-cased "jpg" directory while
    still passing os.path.join(destination, "JPG") to postprocessImages, so on
    a case-sensitive filesystem the clustering step does not operate on the
    images just copied: a slip contradicting the function's own description
    ("Then JPG files are sorted based on creation year"). -/
theorem C1_jpg_dir_mismatch :
    ((do_organization (fun _ => true) "s" "d" 500 false false false 4 (fun _ => "")
        [("s", "photo.jpg")] (initState "d")).toOption.map
      (fun r => (r.finalState.copies.map Prod.snd, r.postprocessDir))
      = some (["d/jpg/0.jpg"], "d/JPG")) ∧
    destDirPkg "d" "photo.jpg" = "d/jpg" ∧ ("d/jpg" : String) ≠ "d/JPG" ∧
    ((mainScript (fun _ => true) "s" "d" 500 false false false 4 (fun _ => "")
        [("s", "photo.jpg")] (initState "d")).toOption.map
      (fun r => (r.finalState.copies.map Prod.snd, r.postprocessDir))
      = some (["d/JPG/0.jpg"], "d/JPG")) ∧
    destDirScript "d" "photo.jpg" = "d/JPG" := by
  refine ⟨by decide, by decide, by decide, by decide, by decide⟩

/-- C2 counterexample: with max-files-per-directory = 0 and min-event-delta = 0
    (both non-positive) and both directories present, each driver performs a
    mkdir and a copy and returns successfully: no fatal precondition violation
    is reported before file I/O, refuting the claim. -/
theorem C2_counterexample :
    ((do_organization (fun _ => true) "s" "d" 0 false false false 0 (fun _ => "")
        [("s", "a.jpg")] (initState "d")).toOption.map
      (fun r => (r.finalState.copies, r.finalState.mkdirs))
      = some ([("s/a.jpg", "d/jpg/0.jpg")], ["d/jpg"])) ∧
    ((mainScript (fun _ => true) "s" "d" 0 false false false 0 (fun _ => "")
        [("s", "a.jpg")] (initState "d")).toOption.map
      (fun r => (r.finalState.copies, r.finalState.mkdirs))
      = some ([("s/a.jpg", "d/JPG/0.jpg")], ["d/JPG"])) := by
  refine ⟨by decide, by decide⟩

/-- C2 amended: the only precondition checks either driver performs before the
    copy loop are that source and destination are existing directories
    (raising ValueError otherwise); the cap and the minimum event delta are
    never validated, and whenever both directories exist the run proceeds to
    the copy phase for every cap and delta, non-positive values included. -/
theorem C2_amended (isdir : String → Bool) (s d : String) (cap : Int) (sm k j : Bool)
    (delta : Int) (cr : String → String) (walk : List (String × String)) (st : CopyState) :
    (isdir s = false →
      do_organization isdir s d cap sm k j delta cr walk st
        = Except.error ("Source directory does not exist: " ++ s) ∧
      mainScript isdir s d cap sm k j delta cr walk st
        = Except.error ("Source directory does not exist: " ++ s)) ∧
    (isdir s = true → isdir d = false →
      do_organization isdir s d cap sm k j delta cr walk st
        = Except.error ("Destination directory does not exist: " ++ d) ∧
      mainScript isdir s d cap sm k j delta cr walk st
        = Except.error ("Destination directory does not exist: " ++ d)) ∧
    (isdir s = true → isdir d = true →
      do_organization isdir s d cap sm k j delta cr walk st = Except.ok
        { finalState := runCopyPkg d k j cr walk st, postprocessDir := pjoin d "JPG",
          minEventDelta := delta, splitMonths := sm, limiterCap := cap } ∧
      mainScript isdir s d cap sm k j delta cr walk st = Except.ok
        { finalState := runCopyScript d k j cr walk st, postprocessDir := pjoin d "JPG",
          minEventDelta := delta, splitMonths := sm, limiterCap := cap }) := by
  refine ⟨fun hs => ?_, fun hs hd => ?_, fun hs hd => ?_⟩
  · constructor <;> simp [do_organization, mainScript, hs]
  · constructor <;> simp [do_organization, mainScript, hs, hd]
  · constructor <;> simp [do_organization, mainScript, hs, hd]

/-- C2 amended witness at a concrete invalid configuration. -/
theorem C2_amended_witness :
    do_organization (fun _ => true) "s" "d" (-3) false false false (-1) (fun _ => "")
      [("s", "a.jpg")] (initState "d") = Except.ok
      { finalState := runCopyPkg "d" false false (fun _ => "") [("s", "a.jpg")] (initState "d"),
        postprocessDir := pjoin "d" "JPG",
        minEventDelta := -1, splitMonths := false, limiterCap := -3 } :=
  ((C2_amended (fun _ => true) "s" "d" (-3) false false false (-1) (fun _ => "")
    [("s", "a.jpg")] (initState "d")).2.2 rfl rfl).1

/-- C3 counterexample: in sequential mode, three source files a.jpg, b.png,
    c.jpg are named by one global counter: the JPG directory receives 0.jpg
    and 2.jpg, not the consecutive per-directory names 0.jpg, 1.jpg the claim
    requires, and the PNG directory starts at 1, not 0. -/
theorem C3_counterexample :
    ((runCopyScript "d" false false (fun _ => "") [("s", "a.jpg"), ("s", "b.png"), ("s", "c.jpg")]
        (initState "d")).copies.map Prod.snd
      = ["d/JPG/0.jpg", "d/PNG/1.png", "d/JPG/2.jpg"]) ∧
    ("d/JPG/2.jpg" : String) ≠ "d/JPG/1.jpg" ∧ ("d/PNG/1.png" : String) ≠ "d/PNG/0.png" := by
  refine ⟨by decide, by decide, by decide⟩

/-- C3 amended: in sequential mode the numbering is global across the whole
    run, not per destination directory: the counter increases by exactly one
    per processed file regardless of directory, and the name chosen for a file
    is the current global counter value followed by the lower-cased extension
    (bare counter when there is no extension); a directory therefore receives
    an increasing but not necessarily consecutive sequence of numerals. -/
theorem C3_amended (dest : String) (keep dtf : Bool) (cr : String → String)
    (walk : List (String × String)) (st : CopyState) (existing : List String) (c : Nat)
    (f e dir creation : String) :
    (runCopyScript dest keep dtf cr walk st).counter = st.counter + walk.length ∧
    (runCopyPkg dest keep dtf cr walk st).counter = st.counter + walk.length ∧
    chosenName existing c false false f e dir creation
      = (if e ≠ "" then Nat.repr c ++ "." ++ strLower e else Nat.repr c) :=
  ⟨runCopyScript_counter dest keep dtf cr walk st,
   runCopyPkg_counter dest keep dtf cr walk st, rfl⟩

/-- C4: with the date-time filename policy, whenever the resolved creation
    value fails to parse as YYYY:MM:DD HH:MM:SS the chosen filename is the
    original filename, unchanged; the fallback is total (the except-branch of
    recovery.py:124-125), so no exception escapes the copy loop. -/
theorem C4_unparsable_keeps_name (existing : List String) (c : Nat)
    (f e dir creation : String) (hp : parseTimestamp creation = none) :
    chosenName existing c false true f e dir creation = f := by
  simp [chosenName, hp]

/-- C4 witness: the value "unknown" does not parse and the original name
    a.jpg is kept. -/
theorem C4_witness :
    parseTimestamp "unknown" = none ∧
    chosenName ["d", "d/JPG"] 0 false true "a.jpg" "JPG" "d/JPG" "unknown" = "a.jpg" :=
  ⟨by decide, C4_unparsable_keeps_name ["d", "d/JPG"] 0 "a.jpg" "JPG" "d/JPG" "unknown" (by decide)⟩

/-- C5: with the date-time policy and a parsable timestamp, the chosen name is
    the strftime-compact timestamp with the lower-cased extension; probe 0 is
    base.ext and probe n is base(n).ext, and the loop returns the first probe
    whose path does not exist in the destination directory, all earlier probes
    existing — resolution is purely an existence check on names. -/
theorem C5_datetime_collision (existing : List String) (c : Nat) (f e dir creation : String)
    (t : DateTime) (n : Nat) (hp : parseTimestamp creation = some t)
    (htaken : ∀ i, i < n → pjoin dir (dtProbeName (fmtCompact t) (strLower e) i) ∈ existing)
    (hfree : pjoin dir (dtProbeName (fmtCompact t) (strLower e) n) ∉ existing)
    (hn : n ≤ existing.length) :
    chosenName existing c false true f e dir creation = dtProbeName (fmtCompact t) (strLower e) n ∧
    dtProbeName (fmtCompact t) (strLower e) 0 = fmtCompact t ++ "." ++ strLower e ∧
    ∀ m, dtProbeName (fmtCompact t) (strLower e) (m + 1)
      = fmtCompact t ++ "(" ++ Nat.repr (m + 1) ++ ")." ++ strLower e := by
  refine ⟨?_, rfl, fun m => rfl⟩
  simp only [chosenName, hp]
  exact probeLoop_spec existing dir (fmtCompact t) (strLower e) (existing.length + 1) 0 n
    (Nat.zero_le n) (by omega) (fun i hi1 hi2 => htaken i hi2) hfree

/-- C5 witness: with 20210203_040506.jpg already present, the probe settles on
    20210203_040506(1).jpg. -/
theorem C5_witness :
    chosenName ["d/JPG", "d/JPG/20210203_040506.jpg"] 0 false true "a.jpg" "JPG" "d/JPG"
      "2021:02:03 04:05:06" = "20210203_040506(1).jpg" :=
  Eq.trans
    (C5_datetime_collision ["d/JPG", "d/JPG/20210203_040506.jpg"] 0 "a.jpg" "JPG" "d/JPG"
      "2021:02:03 04:05:06" ⟨2021, 2, 3, 4, 5, 6⟩ 1 (by decide)
      (fun i hi => by
        have hi0 : i = 0 := by omega
        subst hi0
        decide)
      (by decide) (by decide)).1
    (by decide)

/-- C6 (spec-modelled, jpgSorter is not among the provided sources): the
    timestamp resolver is a pure function of its candidate mapping; it returns
    "unknown" (none) exactly when no candidate value parses in the fixed
    YYYY:MM:DD HH:MM:SS format, and otherwise returns one of the successfully
    parsed values that is chronologically minimal among all of them. -/
theorem C6_resolver_minimum (tags : List (String × String)) :
    (getMinimumCreationTime tags = none ↔ ∀ p ∈ tags, parseTimestamp p.2 = none) ∧
    ∀ t, getMinimumCreationTime tags = some t →
      (∃ p ∈ tags, parseTimestamp p.2 = some t) ∧
      ∀ p v, p ∈ tags → parseTimestamp p.2 = some v → dtKey t ≤ dtKey v := by
  unfold getMinimumCreationTime
  cases hL : tags.filterMap (fun p => parseTimestamp p.2) with
  | nil =>
    constructor
    · constructor
      · intro _
        exact List.filterMap_eq_nil_iff.mp hL
      · intro _
        rfl
    · intro t ht
      simp at ht
  | cons x xs =>
    constructor
    · constructor
      · intro hn
        simp at hn
      · intro hall
        have hnil : tags.filterMap (fun p => parseTimestamp p.2) = [] :=
          List.filterMap_eq_nil_iff.mpr hall
        rw [hL] at hnil
        cases hnil
    · intro t ht
      have hte : xs.foldl (fun a b => if dtKey b < dtKey a then b else a) x = t :=
        Option.some.inj ht
      obtain ⟨hm, hle⟩ := foldl_min_spec xs x
      rw [hte] at hm hle
      constructor
      · have htm : t ∈ tags.filterMap (fun p => parseTimestamp p.2) := by
          rw [hL]
          exact hm
        exact List.mem_filterMap.mp htm
      · intro p v hpm hpv
        have hvL : v ∈ x :: xs := by
          rw [← hL]
          exact List.mem_filterMap.mpr ⟨p, hpm, hpv⟩
        exact hle v hvL

/-- C6 witness: of two parsable candidates the earlier (2020) one is returned
    and its key is at most the other's. -/
theorem C6_witness :
    dtKey ⟨2020, 1, 2, 3, 4, 5⟩ ≤ dtKey ⟨2021, 6, 1, 10, 0, 0⟩ :=
  (((C6_resolver_minimum [("EXIF DateTimeOriginal", "2021:06:01 10:00:00"),
      ("Image DateTime", "2020:01:02 03:04:05")]).2 ⟨2020, 1, 2, 3, 4, 5⟩ (by decide)).2
    ("EXIF DateTimeOriginal", "2021:06:01 10:00:00") ⟨2021, 6, 1, 10, 0, 0⟩
    (by decide) (by decide))

/-- C7 (spec-modelled, numberOfFilesPerFolderLimiter is not among the provided
    sources): the capacity partitioner is idempotent for every positive cap:
    on a tree whose every directory's direct file count is within the cap it
    performs no change, and running it twice equals running it once. -/
theorem C7_partitioner_idempotent (cap : Nat) (hc : 1 ≤ cap) (t : FTree) :
    (compliant cap t = true → partitionDir cap t = t) ∧
    partitionDir cap (partitionDir cap t) = partitionDir cap t :=
  ⟨partitionDir_of_compliant cap t,
   partitionDir_of_compliant cap (partitionDir cap t) (partitionDir_compliant cap hc t)⟩

/-- C7 witness: a compliant two-level tree is untouched, and on an over-full
    directory a second run changes nothing further. -/
theorem C7_witness :
    (partitionDir 2 (FTree.node ["a", "b"] [("sub", FTree.node ["x"] [])])
      = FTree.node ["a", "b"] [("sub", FTree.node ["x"] [])]) ∧
    partitionDir 2 (partitionDir 2 (FTree.node ["a", "b", "c"] []))
      = partitionDir 2 (FTree.node ["a", "b", "c"] []) :=
  ⟨(C7_partitioner_idempotent 2 (by decide) (FTree.node ["a", "b"] [("sub", FTree.node ["x"] [])])).1
      (by decide),
   (C7_partitioner_idempotent 2 (by decide) (FTree.node ["a", "b", "c"] [])).2⟩

/-- C8: when the computed destination path already exists, the copy step
    leaves the destination state entirely unchanged (no copy recorded, no
    error), while the per-file counter still advances by one in both drivers;
    consequently with keep-original filenames two source files sharing a name
    yield a single destination entry, the first one encountered. -/
theorem C8_existing_skipped (st : CopyState) (src dfile dest root file : String)
    (keep dtf : Bool) (cr : String → String) (h : dfile ∈ st.existing) :
    copyStep st src dfile = st ∧
    (processFileScript dest keep dtf cr st root file).counter = st.counter + 1 ∧
    (processFilePkg dest keep dtf cr st root file).counter = st.counter + 1 ∧
    (runCopyScript "d" true false (fun _ => "") [("s1", "x.jpg"), ("s2", "x.jpg")]
      (initState "d")).copies = [("s1/x.jpg", "d/JPG/x.jpg")] := by
  refine ⟨?_, processFileScript_counter dest keep dtf cr st root file,
    processFilePkg_counter dest keep dtf cr st root file, by decide⟩
  unfold copyStep
  rw [if_pos h]

/-- C8 witness: an existing destination file is skipped with the state
    unchanged. -/
theorem C8_witness :
    copyStep demoState "s/x.jpg" "d/JPG/x.jpg" = demoState :=
  (C8_existing_skipped demoState "s/x.jpg" "d/JPG/x.jpg" "d" "s" "x.jpg" false false
    (fun _ => "") (by decide)).1

theorem foldl_count_filter (p : String × String → Bool) (l : List (String × String)) (n : Nat) :
    l.foldl (fun a rf => if p rf then a + 1 else a) n = n + (l.filter p).length := by
  induction l generalizing n with
  | nil => simp
  | cons hd tl ih =>
    rw [List.foldl_cons, List.filter_cons]
    by_cases h : p hd
    · rw [if_pos h, if_pos h, ih, List.length_cons]
      omega
    · rw [if_neg h, if_neg h, ih]

/-- C9 counterexample: the pre-count applies the os.path.isfile test that the
    copy loop does not repeat, so a walk whose only entry is not a regular
    file (a dangling symbolic link x.jpg) yields divisor 0 while the loop body
    still executes: with keep-original names and d/JPG/x.jpg pre-existing the
    copy is skipped without error, the counter advances past the modulus with
    a zero divisor, and fileCounter % onePercentFiles divides by zero. -/
theorem C9_counterexample :
    getNumberOfFilesInFolderRecursively (fun _ => false) [("s", "x.jpg")] = 0 ∧
    onePercentFiles (getNumberOfFilesInFolderRecursively (fun _ => false) [("s", "x.jpg")]) = 0 ∧
    ¬ 1 ≤ onePercentFiles (getNumberOfFilesInFolderRecursively (fun _ => false) [("s", "x.jpg")]) ∧
    (runCopyScript "d" true false (fun _ => "") [("s", "x.jpg")] demoState).counter
      = demoState.counter + 1 ∧
    (runCopyScript "d" true false (fun _ => "") [("s", "x.jpg")] demoState).copies = [] := by
  refine ⟨by decide, by decide, by decide, by decide, by decide⟩

/-- C9 amended: the pre-count is the number of walked entries passing the
    os.path.isfile test, and the divisor is at least one exactly when that
    count is positive — in particular whenever the walk is non-empty and every
    walked entry is a regular file.  When the walk yields only non-regular
    entries the divisor is zero although the copy-loop body still executes
    once per entry, and the modulus at recovery.py:138 divides by zero. -/
theorem C9_amended (isfile : String → Bool) (walk : List (String × String)) :
    getNumberOfFilesInFolderRecursively isfile walk
      = (walk.filter (fun rf => isfile (pjoin rf.1 rf.2))).length ∧
    (1 ≤ getNumberOfFilesInFolderRecursively isfile walk →
      1 ≤ onePercentFiles (getNumberOfFilesInFolderRecursively isfile walk)) ∧
    ((∀ rf ∈ walk, isfile (pjoin rf.1 rf.2) = true) → walk ≠ [] →
      1 ≤ onePercentFiles (getNumberOfFilesInFolderRecursively isfile walk)) := by
  have hlen : getNumberOfFilesInFolderRecursively isfile walk
      = (walk.filter (fun rf => isfile (pjoin rf.1 rf.2))).length := by
    unfold getNumberOfFilesInFolderRecursively
    rw [foldl_count_filter]
    omega
  have hdiv : ∀ n : Nat, 1 ≤ n → 1 ≤ onePercentFiles n := by
    intro n hn
    unfold onePercentFiles
    split
    · rename_i h100
      exact (Nat.one_le_div_iff (by omega)).mpr (by omega)
    · exact hn
  refine ⟨hlen, hdiv _, fun hall hne => ?_⟩
  apply hdiv
  rw [hlen, List.filter_eq_self.mpr hall]
  exact List.length_pos.mpr hne

/-- C9 amended witness: for a walk of regular files the divisor is positive. -/
theorem C9_amended_witness :
    1 ≤ onePercentFiles (getNumberOfFilesInFolderRecursively (fun _ => true) [("s", "a.jpg")]) :=
  (C9_amended (fun _ => true) [("s", "a.jpg")]).2.2 (fun rf hm => rfl) (by decide)

/-- C10 counterexample: on the same two-file source (a.jpg and extensionless
    README) with identical configuration, the script places files under
    d/JPG and d/_NO_EXTENSION while the packaged driver uses d/jpg and
    d/no_extension: the destination directory names, and hence the file
    placements, differ. -/
theorem C10_counterexample :
    ((runCopyScript "d" false false (fun _ => "") [("s", "a.jpg"), ("s", "README")]
        (initState "d")).copies.map Prod.snd = ["d/JPG/0.jpg", "d/_NO_EXTENSION/1"]) ∧
    ((runCopyPkg "d" false false (fun _ => "") [("s", "a.jpg"), ("s", "README")]
        (initState "d")).copies.map Prod.snd = ["d/jpg/0.jpg", "d/no_extension/1"]) ∧
    (runCopyScript "d" false false (fun _ => "") [("s", "a.jpg"), ("s", "README")]
        (initState "d")).copies
      ≠ (runCopyPkg "d" false false (fun _ => "") [("s", "a.jpg"), ("s", "README")]
          (initState "d")).copies := by
  refine ⟨by decide, by decide, by decide⟩

/-- C10 amended: the two drivers are equivalent except for destination
    directory naming: for a file with an extension the script buckets into the
    upper-cased extension directory and the packaged driver into the
    lower-cased one, for an extensionless file they use _NO_EXTENSION versus
    no_extension; the chosen filenames themselves coincide in every filename
    policy, because both drivers lower-case the extension when forming names. -/
theorem C10_amended (dest f : String) (existing : List String) (c : Nat) (keep dtf : Bool)
    (dir creation : String) :
    (splitextExt f ≠ "" →
      destDirScript dest f = pjoin dest (strUpper (splitextExt f)) ∧
      destDirPkg dest f = pjoin dest (strLower (splitextExt f))) ∧
    (splitextExt f = "" →
      destDirScript dest f = pjoin dest "_NO_EXTENSION" ∧
      destDirPkg dest f = pjoin dest "no_extension") ∧
    chosenName existing c keep dtf f (strUpper (splitextExt f)) dir creation
      = chosenName existing c keep dtf f (strLower (splitextExt f)) dir creation := by
  refine ⟨fun h => ?_, fun h => ?_, ?_⟩
  · constructor
    · simp only [destDirScript]
      rw [if_pos]
      intro hu
      exact h ((strUpper_eq_empty_iff _).mp hu)
    · simp only [destDirPkg]
      rw [if_pos]
      intro hl
      exact h ((strLower_eq_empty_iff _).mp hl)
  · constructor
    · simp only [destDirScript, h]
      rw [if_neg]
      intro hu
      exact hu ((strUpper_eq_empty_iff _).mpr rfl)
    · simp only [destDirPkg, h]
      rw [if_neg]
      intro hl
      exact hl ((strLower_eq_empty_iff _).mpr rfl)
  · cases keep with
    | true => rfl
    | false =>
      cases dtf with
      | true =>
        simp only [chosenName]
        cases hp : parseTimestamp creation with
        | none => rfl
        | some t =>
          rw [strLower_strUpper, strLower_strLower]
          rfl
      | false =>
        by_cases hE : splitextExt f = ""
        · rw [hE]
          rfl
        · simp only [chosenName]
          rw [if_pos (fun hu => hE ((strUpper_eq_empty_iff _).mp hu)),
            if_pos (fun hl => hE ((strLower_eq_empty_iff _).mp hl)),
            strLower_strUpper, strLower_strLower]

/-- C10 amended witness at a.jpg and a file without extension. -/
theorem C10_amended_witness :
    (destDirScript "d" "a.jpg" = pjoin "d" (strUpper (splitextExt "a.jpg")) ∧
      destDirPkg "d" "a.jpg" = pjoin "d" (strLower (splitextExt "a.jpg"))) ∧
    (destDirScript "d" "README" = pjoin "d" "_NO_EXTENSION" ∧
      destDirPkg "d" "README" = pjoin "d" "no_extension") :=
  ⟨(C10_amended "d" "a.jpg" [] 0 false false "x" "y").1 (by decide),
   (C10_amended "d" "README" [] 0 false false "x" "y").2.1 (by decide)⟩
